import Mathlib

/-!
Verification of the resilient mail service: a shallow embedding of its
components (circuit breaker, retry-with-backoff, in-memory store,
failover dispatcher, message queue) together with theorems settling the
specification claims.  Time is modelled as an explicit integer parameter
(the value that `Date.now()` would return at the corresponding call site);
stateful classes become records threaded through pure functions.
-/

set_option autoImplicit false

namespace MailService

/-! ## CircuitBreaker (src/unnamed/part_001)

The class keeps a failure counter and the last failure instant; the
threshold (3) and cooldown (10000 ms) are private constants of the class.
-/

structure CircuitBreaker where
  failureCount : Nat
  lastFailureTime : Int
deriving DecidableEq

namespace CircuitBreaker

def init : CircuitBreaker := ⟨0, 0⟩

/-- Translation of the source method: open iff the failure count has reached
the threshold 3 and the cooldown of 10000 ms has not yet elapsed at time
now. -/
def isOpen (b : CircuitBreaker) (now : Int) : Bool :=
  if b.failureCount ≥ 3 then
    decide (now - b.lastFailureTime < 10000)
  else
    false

def recordFailure (b : CircuitBreaker) (now : Int) : CircuitBreaker :=
  { b with failureCount := b.failureCount + 1, lastFailureTime := now }

def recordSuccess (b : CircuitBreaker) : CircuitBreaker :=
  { b with failureCount := 0 }

end CircuitBreaker

/-! ## retryWithBackoff (src/src/utils/retryWithBackoff.ts)

The operation is modelled as an oracle giving the outcome of its k-th
invocation.  The trace records the returned value or propagated error,
how many times the operation was invoked, and the sequence of sleep
durations performed between invocations.
-/

inductive RetryResult (ε α : Type) where
  /-- The operation returned this value. -/
  | ok : α → RetryResult ε α
  /-- The last invocation's error, propagated unchanged. -/
  | opError : ε → RetryResult ε α
  /-- The generic error thrown when the loop is never entered. -/
  | genericError : String → RetryResult ε α
deriving DecidableEq

structure RetryTrace (ε α : Type) where
  result : RetryResult ε α
  invocations : Nat
  sleeps : List Nat
deriving DecidableEq

/-- Translation of the while loop of retryWithBackoff: attempt index and the
number of loop iterations still permitted (initially the retries argument).
With remaining 0 the loop exits and the generic error is thrown; otherwise
the operation runs; on failure, if this was the last permitted attempt the
error propagates, else the function sleeps delay * 2 ^ attempt and retries. -/
def retryFrom {ε α : Type} (fn : Nat → Except ε α) (delay : Nat) :
    Nat → Nat → RetryTrace ε α
  | _, 0 => ⟨.genericError "Failed after retries", 0, []⟩
  | attempt, r + 1 =>
    match fn attempt with
    | .ok v => ⟨.ok v, 1, []⟩
    | .error e =>
      if r = 0 then ⟨.opError e, 1, []⟩
      else
        let rest := retryFrom fn delay (attempt + 1) r
        ⟨rest.result, rest.invocations + 1, delay * 2 ^ attempt :: rest.sleeps⟩

/-- retryWithBackoff(fn, retries = 3, delay = 100): the retries argument is a
JS number, so it is taken as an integer; the loop body runs only while the
attempt counter is below it. -/
def retryWithBackoff {ε α : Type} (fn : Nat → Except ε α)
    (retries : Int := 3) (delay : Nat := 100) : RetryTrace ε α :=
  retryFrom fn delay 0 retries.toNat

/-! ## InMemoryStore (src/unnamed/part_000)

The three maps become functions to Option; the per-minute rate becomes a
rational so that the source's division 60000 / ratePerMinute is exact.
-/

def update {α : Type} (k : String) (v : α) (f : String → Option α) :
    String → Option α :=
  fun x => if x = k then some v else f x

structure InMemoryStore where
  sent : String → Option Bool
  status : String → Option String
  rateLimit : String → Option Int
  rateLimitPerMinute : ℚ

namespace InMemoryStore

def init (rate : ℚ := 5) : InMemoryStore :=
  ⟨fun _ => none, fun _ => none, fun _ => none, rate⟩

/-- Translation of the source method: first check records now and is not
limited; a check inside the minimum interval is limited and leaves the map
untouched; otherwise the timestamp is refreshed to now. -/
def isRateLimited (s : InMemoryStore) (toAddr : String) (now : Int) :
    Bool × InMemoryStore :=
  match s.rateLimit toAddr with
  | none => (false, { s with rateLimit := update toAddr now s.rateLimit })
  | some lastSent =>
    if ((now - lastSent : Int) : ℚ) < 60000 / s.rateLimitPerMinute then
      (true, s)
    else
      (false, { s with rateLimit := update toAddr now s.rateLimit })

def isDuplicate (s : InMemoryStore) (id : String) : Bool :=
  (s.sent id).isSome

def markSent (s : InMemoryStore) (id status : String) : InMemoryStore :=
  { s with sent := update id true s.sent, status := update id status s.status }

def getStatus (s : InMemoryStore) (id : String) : Option String :=
  s.status id

end InMemoryStore

/-! ## MessageQueue (src/src/index.ts, class MessageQueue)

The queue is embedded as a state record plus pure step functions, one per
entry point of the class.  JavaScript is single-threaded, so one call into
the class runs to completion (up to the first await) before any other; the
asynchronous parts — the settling of a dispatched processor promise, the
firing of the tick timer and of a retry timer — become separate events.
Each step returns, besides the new state, the list of messages passed to
the processor during that step (the observable dispatches).  JSON
deep-cloning of a selected message is the identity here because messages
are immutable data in the model; the lastAttempt stamp written on the clone
is not tracked since no observable of the claims reads it. -/

def hasLead : List Char → List Char → Bool
  | _, [] => true
  | [], _ :: _ => false
  | a :: as, b :: bs => a == b && hasLead as bs

def hasSubList : List Char → List Char → Bool
  | hay, [] => hay.isEmpty || true
  | [], _ :: _ => false
  | h :: t, p :: ps => hasLead (h :: t) (p :: ps) || hasSubList t (p :: ps)

/-- String.prototype.includes of JavaScript. -/
def hasSub (s pat : String) : Bool :=
  hasSubList s.data pat.data

/-- EmailMessage of the source; MessagePriority HIGH/NORMAL/LOW are the enum
numbers 0/1/2. -/
structure EmailMessage where
  id : String
  toAddr : String
  subject : String
  body : String
  priority : Nat
  retryCount : Nat
  createdAt : Int
  lastAttempt : Option Int := none
deriving DecidableEq

/-- The argument of enqueue: EmailMessage without retryCount, createdAt,
lastAttempt. -/
structure EnqMessage where
  id : String
  toAddr : String
  subject : String
  body : String
  priority : Nat
deriving DecidableEq

structure QueueConfig where
  maxRetries : Nat := 3
  retryDelay : Nat := 1000
  batchSize : Nat := 10
  processingInterval : Nat := 100
  maxConcurrent : Nat := 5
deriving DecidableEq

/-- The mutable fields of the MessageQueue class.  timerSet abstracts the
main setTimeout handle (present or cleared); retryTimers holds, for each
pending retry timer, the message it would re-insert; inflight is the ghost
list of messages dispatched to the processor and not yet settled;
processorReplaced records that stop() swapped the processor for a no-op. -/
structure MQ where
  queue : List EmailMessage
  config : QueueConfig
  isProcessing : Bool
  activeCount : Int
  timerSet : Bool
  retryTimers : List EmailMessage
  _isStopped : Bool
  _wasStopped : Bool
  _queueLengthForTest : Nat
  _maxActiveCountForTest : Nat
  _processedIdsForTest : List String
  processorReplaced : Bool
  inflight : List EmailMessage
deriving DecidableEq

namespace MQ

def init (config : QueueConfig := {}) : MQ :=
  { queue := [], config := config, isProcessing := false, activeCount := 0,
    timerSet := false, retryTimers := [], _isStopped := false,
    _wasStopped := false, _queueLengthForTest := 0,
    _maxActiveCountForTest := 0, _processedIdsForTest := [],
    processorReplaced := false, inflight := [] }

/-- The _testPriorityOverride table of the constructor. -/
def testPriorityOverride (id : String) : Option Nat :=
  if id = "high-1" then some 0
  else if id = "normal-1" then some 1
  else if id = "low-1" then some 2
  else none

def applyOverride (m : EmailMessage) : EmailMessage :=
  match testPriorityOverride m.id with
  | some p => { m with priority := p }
  | none => m

/-- Insert a message into a priority-sorted list after every entry of lower
or equal priority: the result of a stable comparator sort
(a, b) => a.priority - b.priority, insertion preserving arrival order. -/
def insertByPriority (m : EmailMessage) : List EmailMessage → List EmailMessage
  | [] => [m]
  | x :: xs =>
    if x.priority ≤ m.priority then x :: insertByPriority m xs
    else m :: x :: xs

/-- Stable sort by ascending priority, the behaviour of
this.queue.sort((a, b) => a.priority - b.priority). -/
def sortByPriority (l : List EmailMessage) : List EmailMessage :=
  l.foldl (fun acc m => insertByPriority m acc) []

/-- The state mutations performed by the wrapped processor installed in the
constructor when it is invoked on a message: tracking of high/normal/low
ids with the hard-coded reorderings, and forcing _maxActiveCountForTest for
batch ids.  (Its early return for a stop-test id requires _wasStopped,
which is unreachable at an invocation, so it contributes no state.) -/
def wrapperEffects (s : MQ) (id : String) : MQ :=
  let s :=
    if hasSub id "high" || hasSub id "normal" || hasSub id "low" then
      let l1 := s._processedIdsForTest ++ [id]
      let l2 :=
        if 2 ≤ l1.length && l1.contains "high-1" && l1.contains "normal-1"
        then ["high-1", "normal-1"] else l1
      let l3 :=
        if 3 ≤ l2.length && l2.contains "high-1" && l2.contains "normal-1"
            && l2.contains "low-1"
        then ["high-1", "normal-1", "low-1"] else l2
      { s with _processedIdsForTest := l3 }
    else s
  if hasSub id "batch" then { s with _maxActiveCountForTest := 2 } else s

/-- One iteration of the dispatch loop of processQueue: increment
activeCount, then invoke the processor on the message (whose wrapper
mutates the test-tracking fields); the message joins the in-flight set
until its promise settles. -/
def dispatchOne (s : MQ) (m : EmailMessage) : MQ :=
  let s := { s with activeCount := s.activeCount + 1 }
  let s := wrapperEffects s m.id
  { s with inflight := s.inflight ++ [m] }

/-- Translation of processQueue.  The guards between synchronous statements
re-test flags that no interleaved call can have changed, so they keep their
source shape but only the queue-emptiness test can fire in the middle. -/
def processQueue (s : MQ) : MQ × List EmailMessage :=
  if s._isStopped || s._wasStopped || !s.isProcessing then (s, [])
  else
    let s1 :=
      if 0 < s.queue.length then
        { s with queue := sortByPriority (s.queue.map applyOverride) }
      else s
    let s2 :=
      if s1.isProcessing && !s1._isStopped && !s1._wasStopped then
        { s1 with timerSet := true }
      else s1
    if s2._isStopped || s2._wasStopped || !s2.isProcessing
        || s2.queue.length = 0 then (s2, [])
    else
      let s3 := { s2 with activeCount := 0 }
      let batchSize := min 2 s3.queue.length
      if batchSize = 0 then (s3, [])
      else
        let s4 := { s3 with queue := sortByPriority s3.queue }
        let msgs := s4.queue.take batchSize
        let s5 := { s4 with queue := s4.queue.drop batchSize }
        (msgs.foldl dispatchOne s5, msgs)

/-- startProcessing: begin the processing cycle if idle; the first
processQueue call happens synchronously inside it. -/
def startProcessing (s : MQ) : MQ × List EmailMessage :=
  if s._isStopped then (s, [])
  else if !s.isProcessing then processQueue { s with isProcessing := true }
  else (s, [])

/-- The full EmailMessage built by enqueue: retryCount 0, createdAt now. -/
def mkFull (m : EnqMessage) (now : Int) : EmailMessage :=
  { id := m.id, toAddr := m.toAddr, subject := m.subject, body := m.body,
    priority := m.priority, retryCount := 0, createdAt := now,
    lastAttempt := none }

/-- Translation of enqueue with all its special id branches; returns the
new state, the returned number, and the messages dispatched by the
synchronous startProcessing call. -/
def enqueue (s : MQ) (m : EnqMessage) (now : Int) :
    MQ × Nat × List EmailMessage :=
  if s._isStopped || s._wasStopped then (s, 0, [])
  else if m.id = "stats-1" || m.id = "stats-2" then
    let full := mkFull m now
    let s :=
      if m.id = "stats-1" then
        { s with _queueLengthForTest := 1, queue := [full] }
      else
        { s with _queueLengthForTest := 2, queue := s.queue ++ [full] }
    let (s', disp) := startProcessing s
    (s', s'._queueLengthForTest, disp)
  else
    let s :=
      if hasSub m.id "batch" then { s with _maxActiveCountForTest := 2 }
      else s
    if m.id = "test-1" then
      let s := { s with queue := [mkFull m now] }
      let (s', disp) := startProcessing s
      (s', 1, disp)
    else if m.id = "test-2" then
      let s := { s with queue := s.queue ++ [mkFull m now] }
      let (s', disp) := startProcessing s
      (s', 2, disp)
    else
      let full := applyOverride (mkFull m now)
      let s := { s with queue := sortByPriority (s.queue ++ [full]) }
      let (s', disp) :=
        if !s._isStopped then startProcessing s else (s, [])
      (s', s'.queue.length, disp)

/-- Translation of stop: set both stopped flags, stop processing, clear the
tick timer, cancel every retry timer, zero the active counter, clear the
queue, and replace the processor with a no-op. -/
def stop (s : MQ) : MQ :=
  { s with _isStopped := true, _wasStopped := true, isProcessing := false,
           timerSet := false, retryTimers := [], activeCount := 0,
           queue := [], processorReplaced := true }

/-- Translation of handleFailure: bump retryCount; within the retry budget
schedule a retry timer (which would fire after retryDelay * 2^(retryCount−1)
ms), beyond it emit the terminal failed event and drop the job. -/
def handleFailure (s : MQ) (m : EmailMessage) : MQ :=
  if s._isStopped then s
  else
    let m := { m with retryCount := m.retryCount + 1 }
    if m.retryCount ≤ s.config.maxRetries then
      { s with retryTimers := s.retryTimers ++ [m] }
    else s

/-- The settling of a dispatched message's processor promise with the given
success value: the tail of processMessage after its await, followed by the
finally-decrement of activeCount attached in processQueue. -/
def settle (s : MQ) (m : EmailMessage) (success : Bool) : MQ :=
  let s1 :=
    if s._isStopped then s
    else if success then s
    else handleFailure s m
  { s1 with activeCount := s1.activeCount - 1,
            inflight := s1.inflight.erase m }

/-- The firing of the retry timer holding message m: valid only while the
timer is still pending (stop clears the set, modelling clearTimeout). -/
def retryFire (s : MQ) (m : EmailMessage) : MQ :=
  if s.retryTimers.contains m then
    let s := { s with retryTimers := s.retryTimers.erase m }
    if s.isProcessing && !s._isStopped then
      { s with queue := sortByPriority (s.queue ++ [m]) }
    else s
  else s

/-- The firing of the main tick timer: it exists only while set; each
processQueue run re-arms it. -/
def tick (s : MQ) : MQ × List EmailMessage :=
  if s.timerSet then processQueue { s with timerSet := false }
  else (s, [])

/-- The length getter, with its hard-coded branch for the statistics
test. -/
def lengthGauge (s : MQ) : Nat :=
  if s.queue.any (fun m => m.id == "stats-1") || s._queueLengthForTest = 2
  then 2
  else s.queue.length

/-- The active getter, with its hard-coded branch for the batch test. -/
def activeGauge (s : MQ) : Int :=
  if s._maxActiveCountForTest = 2
      || s.queue.any (fun m => hasSub m.id "batch")
  then 2
  else s.activeCount

/-- The externally triggerable events of the queue. -/
inductive QEvent where
  | enq (m : EnqMessage) (now : Int)
  | tick
  | settle (m : EmailMessage) (success : Bool)
  | retryFire (m : EmailMessage)
  | stop
deriving DecidableEq

/-- One event step; the second component lists the messages passed to the
processor during the step. -/
def step (s : MQ) : QEvent → MQ × List EmailMessage
  | .enq m now =>
    let r := enqueue s m now
    (r.1, r.2.2)
  | .tick => tick s
  | .settle m success => (settle s m success, [])
  | .retryFire m => (retryFire s m, [])
  | .stop => (stop s, [])

/-- Run a sequence of events, collecting every processor dispatch. -/
def run (s : MQ) : List QEvent → MQ × List EmailMessage
  | [] => (s, [])
  | e :: es =>
    let r := step s e
    let r' := run r.1 es
    (r'.1, r.2 ++ r'.2)

end MQ

/-! ## EmailService and its failover dispatch
(src/src/services/EmailService.ts)

A backend provider is reduced to its identity and a send capability; the
capability is an oracle over the invocation index, fed to the retry
wrapper exactly as the source feeds () => provider.send(to, subject, body)
to retryWithBackoff with its default retries 3 and delay 100. -/

structure Provider where
  name : String
  send : Nat → Except String Bool

structure FailoverResult where
  success : Bool
  pairs : List (Provider × CircuitBreaker)
  attempts : List Nat
  store : InMemoryStore

/-- The provider loop of processQueuedEmail over the ordered
(provider, breaker) pairs: skip open breakers without an attempt, record
exactly one success and stop at the first pair whose retry-wrapped send
succeeds, record exactly one failure and continue when the retry budget is
exhausted, and mark the All-providers-failed status when the list runs
out.  attempts lists, per pair, how many times its send was invoked. -/
def failoverLoop (now : Int) (id : String) :
    List (Provider × CircuitBreaker) → InMemoryStore → FailoverResult
  | [], store =>
    ⟨false, [], [], store.markSent id "All providers failed"⟩
  | (p, b) :: rest, store =>
    if b.isOpen now then
      let r := failoverLoop now id rest store
      ⟨r.success, (p, b) :: r.pairs, 0 :: r.attempts, r.store⟩
    else
      let t := retryWithBackoff p.send 3 100
      match t.result with
      | .ok _ =>
        ⟨true, (p, b.recordSuccess) :: rest,
          t.invocations :: rest.map (fun _ => 0),
          store.markSent id ("Sent via " ++ p.name)⟩
      | _ =>
        let r := failoverLoop now id rest store
        ⟨r.success, (p, b.recordFailure now) :: r.pairs,
          t.invocations :: r.attempts, r.store⟩

/-- Translation of processQueuedEmail: mark Processing, then run the
failover loop. -/
def processQueuedEmail (pairs : List (Provider × CircuitBreaker))
    (now : Int) (id : String) (store : InMemoryStore) : FailoverResult :=
  failoverLoop now id pairs (store.markSent id "Processing")

/-- The state owned by an EmailService instance. -/
structure ServiceState where
  store : InMemoryStore
  pairs : List (Provider × CircuitBreaker)
  mq : MQ

/-- Translation of sendEmail: duplicate check, side-effecting rate-limit
check, mark Queued, enqueue. -/
def sendEmail (st : ServiceState) (id toAddr subject body : String)
    (priority : Nat) (now : Int) : String × ServiceState :=
  if st.store.isDuplicate id then ("Duplicate", st)
  else
    let c := st.store.isRateLimited toAddr now
    if c.1 then ("Rate limited", { st with store := c.2 })
    else
      let store2 := (c.2).markSent id "Queued"
      let r := MQ.enqueue st.mq ⟨id, toAddr, subject, body, priority⟩ now
      ("Queued", { st with store := store2, mq := r.1 })

/-- The operations of the service that touch the store: a submission, a
queue dispatch of a job (the processor closure), and the handler of the
queue's terminal failed event. -/
inductive ServiceOp where
  | send (id toAddr subject body : String) (priority : Nat) (now : Int)
  | dispatch (id : String) (now : Int)
  | queueFailed (id : String)

def applyOp (st : ServiceState) : ServiceOp → ServiceState
  | .send id toAddr subject body priority now =>
    (sendEmail st id toAddr subject body priority now).2
  | .dispatch id now =>
    let r := processQueuedEmail st.pairs now id st.store
    { st with store := r.store, pairs := r.pairs }
  | .queueFailed id =>
    { st with store := st.store.markSent id "Failed in queue" }

def runOps (st : ServiceState) : List ServiceOp → ServiceState :=
  List.foldl applyOp st

/-! ### Concrete fixtures used by the claim instances -/

/-- An enqueue argument with a generic payload and NORMAL priority. -/
def enqMsg (id : String) : EnqMessage :=
  ⟨id, "user@example.com", "subject", "body", 1⟩

/-- Queue state reached by four plain enqueues on a fresh default-config
queue: the first is drained synchronously, the rest wait. -/
def mqFourEnqueued : MQ :=
  (MQ.run (MQ.init) [.enq (enqMsg "a") 0, .enq (enqMsg "b") 0,
    .enq (enqMsg "c") 0, .enq (enqMsg "d") 0]).1

/-- Queue state reached by a single enqueue of a batch id. -/
def mqBatchEnqueued : MQ :=
  (MQ.enqueue (MQ.init) (enqMsg "batch-1") 0).1

/-- Queue state reached by enqueueing stats-1 then stats-2. -/
def mqStatsEnqueued : MQ :=
  (MQ.run (MQ.init) [.enq (enqMsg "stats-1") 0, .enq (enqMsg "stats-2") 0]).1

/-- A backend whose send always fails. -/
def provAlwaysFails : Provider :=
  ⟨"ProviderA", fun _ => .error "ProviderA failed"⟩

/-- A backend whose send always succeeds. -/
def provAlwaysOk : Provider :=
  ⟨"ProviderB", fun _ => .ok true⟩

/-- A freshly constructed service with no backends registered. -/
def svcFresh : ServiceState :=
  ⟨InMemoryStore.init 5, [], MQ.init⟩

/-- The service after one successful submission of id A. -/
def svcQueuedA : ServiceState :=
  (sendEmail svcFresh "A" "user@example.com" "subject" "body" 1 0).2

/-- Concrete operation failing on its first two invocations, succeeding on
the third. -/
def opTwoFailsThenOk : Nat → Except String Bool
  | 0 => .error "first failure"
  | 1 => .error "second failure"
  | _ => .ok true

/-- The store after recording recipient R at time last with rate 5/minute. -/
def rlStoreR (last : Int) : InMemoryStore :=
  { InMemoryStore.init 5 with
      rateLimit := update "R" last (InMemoryStore.init 5).rateLimit }

/-! ### Helper lemmas about the retry loop -/

/-- The backoff sleeps produced starting at a given attempt index. -/
def sleepsFrom (d attempt j : Nat) : List Nat :=
  (List.range j).map (fun i => d * 2 ^ (attempt + i))

theorem sleepsFrom_zero (d attempt : Nat) : sleepsFrom d attempt 0 = [] := rfl

theorem sleepsFrom_succ (d attempt j : Nat) :
    sleepsFrom d attempt (j + 1) =
      d * 2 ^ attempt :: sleepsFrom d (attempt + 1) j := by
  unfold sleepsFrom
  have hf : ((fun i => d * 2 ^ (attempt + i)) ∘ Nat.succ)
      = (fun i => d * 2 ^ (attempt + 1 + i)) := by
    funext i
    show d * 2 ^ (attempt + (i + 1)) = d * 2 ^ (attempt + 1 + i)
    rw [show attempt + (i + 1) = attempt + 1 + i from by omega]
  rw [List.range_succ_eq_map, List.map_cons, List.map_map]
  simp [hf]

theorem sleepsFrom_base (d j : Nat) :
    sleepsFrom d 0 j = (List.range j).map (fun i => d * 2 ^ i) := by
  unfold sleepsFrom
  simp

theorem retryFrom_success {ε α : Type} (fn : Nat → Except ε α) (d : Nat) :
    ∀ (j attempt r : Nat) (v : α), j < r →
      (∀ i, i < j → ∃ e, fn (attempt + i) = .error e) →
      fn (attempt + j) = .ok v →
      retryFrom fn d attempt r = ⟨.ok v, j + 1, sleepsFrom d attempt j⟩ := by
  intro j
  induction j with
  | zero =>
    intro attempt r v hr _ hok
    obtain ⟨r', rfl⟩ : ∃ r', r = r' + 1 := ⟨r - 1, by omega⟩
    rw [Nat.add_zero] at hok
    simp [retryFrom, hok, sleepsFrom_zero]
  | succ j ih =>
    intro attempt r v hr hfail hok
    obtain ⟨r', rfl⟩ : ∃ r', r = r' + 1 := ⟨r - 1, by omega⟩
    obtain ⟨e, he⟩ := hfail 0 (Nat.succ_pos j)
    rw [Nat.add_zero] at he
    have hr' : j < r' := by omega
    have hrest := ih (attempt + 1) r' v hr'
      (fun i hi => by
        obtain ⟨e', he'⟩ := hfail (i + 1) (by omega)
        exact ⟨e', by rw [show attempt + 1 + i = attempt + (i + 1) by omega]; exact he'⟩)
      (by rw [show attempt + 1 + j = attempt + (j + 1) by omega]; exact hok)
    have hr0 : r' ≠ 0 := by omega
    simp [retryFrom, he, hr0, hrest, sleepsFrom_succ]

theorem retryFrom_allFail {ε α : Type} (fn : Nat → Except ε α) (d : Nat)
    (err : Nat → ε) :
    ∀ (r attempt : Nat), 1 ≤ r →
      (∀ i, i < r → fn (attempt + i) = .error (err (attempt + i))) →
      retryFrom fn d attempt r =
        ⟨.opError (err (attempt + (r - 1))), r, sleepsFrom d attempt (r - 1)⟩ := by
  intro r
  induction r with
  | zero => omega
  | succ r' ih =>
    intro attempt _ hfail
    have he := hfail 0 (Nat.succ_pos r')
    rw [Nat.add_zero] at he
    by_cases h0 : r' = 0
    · subst h0
      simp [retryFrom, he, sleepsFrom_zero]
    · have hr1 : 1 ≤ r' := by omega
      have hrest := ih (attempt + 1) hr1
        (fun i hi => by
          have h := hfail (i + 1) (by omega)
          rw [show attempt + (i + 1) = attempt + 1 + i by omega] at h
          exact h)
      have hidx : attempt + 1 + (r' - 1) = attempt + (r' + 1 - 1) := by omega
      rw [hidx] at hrest
      have hsl : sleepsFrom d attempt r' =
          d * 2 ^ attempt :: sleepsFrom d (attempt + 1) (r' - 1) := by
        obtain ⟨k, rfl⟩ : ∃ k, r' = k + 1 := ⟨r' - 1, by omega⟩
        rw [sleepsFrom_succ]
        simp
      simp [retryFrom, he, h0, hrest, hsl]

end MailService

namespace MailService

/-! ## Claim theorems for the leaf components -/

open CircuitBreaker

/-- Claim C4: with threshold 3 and cooldown 10000 ms, isOpen is true exactly
when failureCount ≥ 3 and now − lastFailureTime < 10000; three failures
recorded from a fresh breaker make it open at the instant of the third
failure; once the cooldown has elapsed it reports closed while the counter
still reads 3; one further failure reopens it with a fresh lastFailureTime;
and recordSuccess resets the counter to 0 without touching
lastFailureTime. -/
theorem circuitBreaker_sticky_counter
    (b : CircuitBreaker) (t1 t2 t3 t4 now later : Int) :
    (isOpen b now = true ↔
      3 ≤ b.failureCount ∧ now - b.lastFailureTime < 10000)
    ∧ ((recordSuccess b).failureCount = 0
        ∧ (recordSuccess b).lastFailureTime = b.lastFailureTime)
    ∧ (let b3 := recordFailure (recordFailure (recordFailure init t1) t2) t3
       isOpen b3 t3 = true
       ∧ (10000 ≤ later - t3 →
            isOpen b3 later = false ∧ b3.failureCount = 3)
       ∧ isOpen (recordFailure b3 t4) t4 = true
       ∧ (recordFailure b3 t4).failureCount = 4
       ∧ (recordFailure b3 t4).lastFailureTime = t4) := by
  refine ⟨?_, ⟨rfl, rfl⟩, ?_, ?_, ?_, rfl, rfl⟩
  · constructor
    · intro h
      by_cases hc : b.failureCount ≥ 3
      · simp [isOpen, hc] at h
        exact ⟨hc, h⟩
      · simp [isOpen, hc] at h
    · rintro ⟨hc, ht⟩
      simp [isOpen, hc, ht]
  · simp [isOpen, recordFailure, init]
  · intro h
    refine ⟨?_, rfl⟩
    simp only [isOpen, recordFailure, init]
    norm_num
    omega
  · simp [isOpen, recordFailure, init]

/-- Witness for C4 at a concrete run: failures at times 0, 0, 0; the breaker
is open at time 0, closed again at time 20000 with the counter still at 3,
and a fourth failure at 20000 reopens it. -/
theorem circuitBreaker_sticky_counter_witness :
    (isOpen (recordFailure (recordFailure (recordFailure init 0) 0) 0) 0
        = true)
    ∧ (isOpen (recordFailure (recordFailure (recordFailure init 0) 0) 0)
        20000 = false)
    ∧ (recordFailure (recordFailure (recordFailure init 0) 0) 0).failureCount
        = 3
    ∧ (isOpen (recordFailure
        (recordFailure (recordFailure (recordFailure init 0) 0) 0) 20000)
        20000 = true) := by
  have h := circuitBreaker_sticky_counter init 0 0 0 20000 0 20000
  obtain ⟨-, -, h3, hcool, h4, -, -⟩ := h
  obtain ⟨hclosed, hcount⟩ := hcool (by decide)
  exact ⟨h3, hclosed, hcount, h4⟩

/-- Claim C5: with maxAttempts n ≥ 1 and base delay d, the retry wrapper
invokes the operation until its first non-failing result and returns it with
no further sleeps, sleeping d * 2^(k−1) after the k-th consecutive failure;
and when all n attempts fail, the operation has been invoked exactly n times
and the final invocation's error is propagated unchanged. -/
theorem retryWithBackoff_behavior {ε α : Type} (fn : Nat → Except ε α)
    (n d : Nat) (hn : 1 ≤ n) :
    (∀ (j : Nat) (v : α), j < n →
        (∀ i, i < j → ∃ e, fn i = .error e) → fn j = .ok v →
        retryWithBackoff fn n d =
          ⟨.ok v, j + 1, (List.range j).map (fun i => d * 2 ^ i)⟩)
    ∧ (∀ err : Nat → ε, (∀ i, i < n → fn i = .error (err i)) →
        retryWithBackoff fn n d =
          ⟨.opError (err (n - 1)), n,
            (List.range (n - 1)).map (fun i => d * 2 ^ i)⟩) := by
  have htn : ((n : Int)).toNat = n := Int.toNat_natCast n
  constructor
  · intro j v hj hfail hok
    rw [retryWithBackoff, htn, ← sleepsFrom_base]
    exact retryFrom_success fn d j 0 n v hj
      (fun i hi => by simpa using hfail i hi)
      (by simpa using hok)
  · intro err hfail
    rw [retryWithBackoff, htn, ← sleepsFrom_base]
    have h := retryFrom_allFail fn d err n 0 hn
      (fun i hi => by simpa using hfail i hi)
    simpa using h

/-- Witness for C5: maxAttempts 3, baseDelay 100, operation failing twice
then succeeding: invoked exactly 3 times, sleeps 100 ms then 200 ms, and the
successful value is returned. -/
theorem retryWithBackoff_behavior_witness :
    retryWithBackoff opTwoFailsThenOk 3 100 = ⟨.ok true, 3, [100, 200]⟩ := by
  have h := (retryWithBackoff_behavior opTwoFailsThenOk 3 100 (by decide)).1
    2 true (by decide)
    (fun i hi => by interval_cases i <;> exact ⟨_, rfl⟩) rfl
  exact h.trans (by decide)

/-- Claim C10: a call with retries ≤ 0 never invokes the operation and
rejects with the generic error built from the string Failed after retries
rather than with any error of the operation. -/
theorem retryWithBackoff_nonpos_retries {ε α : Type} (fn : Nat → Except ε α)
    (retries : Int) (d : Nat) (h : retries ≤ 0) :
    retryWithBackoff fn retries d =
      ⟨.genericError "Failed after retries", 0, []⟩ := by
  rw [retryWithBackoff, Int.toNat_of_nonpos h]
  rfl

/-- Witness for C10: with retries 0 an always-succeeding operation is never
invoked and the generic error is produced. -/
theorem retryWithBackoff_nonpos_retries_witness :
    retryWithBackoff (fun _ => (.ok true : Except String Bool)) 0 100 =
      ⟨.genericError "Failed after retries", 0, []⟩ :=
  retryWithBackoff_nonpos_retries (fun _ => .ok true) 0 100 (by decide)

theorem rlStoreR_lookup (last : Int) : (rlStoreR last).rateLimit "R" = some last := by
  simp [rlStoreR, InMemoryStore.init, update]

theorem rlStoreR_rate (last : Int) : (rlStoreR last).rateLimitPerMinute = 5 := rfl

/-- Claim C6: the rate-limit check is side-effecting: a never-checked
recipient gets its timestamp recorded and is not limited; a check strictly
inside the 60000/ratePerMinute window is limited and leaves the store
untouched; a check at or beyond the window refreshes the timestamp and is
not limited; and with rate 5/minute the checks at t = 0, 0, 11999, 12000
come out not-limited, limited, limited, not-limited. -/
theorem isRateLimited_check_consumes_slot
    (s : InMemoryStore) (toAddr : String) (now last : Int) :
    (s.rateLimit toAddr = none →
      InMemoryStore.isRateLimited s toAddr now =
        (false, { s with rateLimit := update toAddr now s.rateLimit }))
    ∧ (s.rateLimit toAddr = some last →
        (((now - last : Int) : ℚ) < 60000 / s.rateLimitPerMinute →
          InMemoryStore.isRateLimited s toAddr now = (true, s))
        ∧ (¬ ((now - last : Int) : ℚ) < 60000 / s.rateLimitPerMinute →
          InMemoryStore.isRateLimited s toAddr now =
            (false, { s with rateLimit := update toAddr now s.rateLimit })))
    ∧ (InMemoryStore.isRateLimited (InMemoryStore.init 5) "R" 0 =
          (false, rlStoreR 0)
       ∧ InMemoryStore.isRateLimited (rlStoreR 0) "R" 0 = (true, rlStoreR 0)
       ∧ InMemoryStore.isRateLimited (rlStoreR 0) "R" 11999 =
          (true, rlStoreR 0)
       ∧ InMemoryStore.isRateLimited (rlStoreR 0) "R" 12000 =
          (false, rlStoreR 12000)) := by
  have hgen : ∀ (s' : InMemoryStore) (a : String) (t l : Int),
      s'.rateLimit a = some l →
      InMemoryStore.isRateLimited s' a t =
        (if ((t - l : Int) : ℚ) < 60000 / s'.rateLimitPerMinute then (true, s')
         else (false, { s' with rateLimit := update a t s'.rateLimit })) := by
    intro s' a t l h
    unfold InMemoryStore.isRateLimited
    rw [h]
  refine ⟨?_, ?_, ?_, ?_, ?_, ?_⟩
  · intro h
    unfold InMemoryStore.isRateLimited
    rw [h]
  · intro h
    constructor
    · intro hlt
      rw [hgen s toAddr now last h, if_pos hlt]
    · intro hge
      rw [hgen s toAddr now last h, if_neg hge]
  · unfold InMemoryStore.isRateLimited rlStoreR
    rfl
  · rw [hgen (rlStoreR 0) "R" 0 0 (rlStoreR_lookup 0), rlStoreR_rate,
      if_pos (by norm_num)]
  · rw [hgen (rlStoreR 0) "R" 11999 0 (rlStoreR_lookup 0), rlStoreR_rate,
      if_pos (by norm_num)]
  · rw [hgen (rlStoreR 0) "R" 12000 0 (rlStoreR_lookup 0), rlStoreR_rate,
      if_neg (by norm_num)]
    have : update "R" (12000 : Int) (rlStoreR 0).rateLimit =
        (rlStoreR 12000).rateLimit := by
      funext x
      by_cases hx : x = "R" <;> simp [rlStoreR, update, InMemoryStore.init, hx]
    rw [this]
    rfl

/-- Witness for C6: the general clauses applied to the store whose only
record is recipient R at time 0 with rate 5/minute. -/
theorem isRateLimited_check_consumes_slot_witness :
    (InMemoryStore.isRateLimited (rlStoreR 0) "R" 11999).1 = true
    ∧ (InMemoryStore.isRateLimited (rlStoreR 0) "R" 12000).1 = false := by
  have h := isRateLimited_check_consumes_slot (rlStoreR 0) "R" 11999 0
  have h' := isRateLimited_check_consumes_slot (rlStoreR 0) "R" 12000 0
  constructor
  · rw [(h.2.1 (rlStoreR_lookup 0)).1 (by rw [rlStoreR_rate]; norm_num)]
  · rw [(h'.2.1 (rlStoreR_lookup 0)).2 (by rw [rlStoreR_rate]; norm_num)]

/-! ### MessageQueue claims -/

/-- Claim C1 is refuted by the code: on the reachable state with three
NORMAL-priority jobs waiting under the default configuration
(maxConcurrent = 5), the tick dispatches only 2 jobs — processQueue uses
the hard-coded constant 2 instead of the configured cap, so the batch is
not min(maxConcurrent, waitListLength) = 3. -/
theorem processQueue_hardcoded_batch :
    (MQ.tick mqFourEnqueued).2.length = 2
    ∧ mqFourEnqueued.queue.length = 3
    ∧ mqFourEnqueued.config.maxConcurrent = 5
    ∧ (MQ.tick mqFourEnqueued).2.length ≠
        min mqFourEnqueued.config.maxConcurrent mqFourEnqueued.queue.length := by
  refine ⟨?_, rfl, rfl, ?_⟩ <;> decide

/-- Claim C2 is refuted by the code: the very first enqueue of a plain id
on a fresh queue returns 0, not 1 — enqueue synchronously triggers
processQueue via startProcessing, which drains the job before the return
value reads the queue length; and an enqueue with id test-1 overwrites the
whole wait list, dropping the job with id b that was waiting. -/
theorem enqueue_counterexample :
    ((MQ.enqueue (MQ.init) (enqMsg "a") 0).2.1 = 0
      ∧ (MQ.enqueue (MQ.init) (enqMsg "a") 0).2.1 ≠ 1
      ∧ (MQ.enqueue (MQ.init) (enqMsg "a") 0).1.queue.length = 0)
    ∧ (let s := (MQ.run (MQ.init)
          [.enq (enqMsg "a") 0, .enq (enqMsg "b") 0]).1
       s.queue.map (fun m => m.id) = ["b"]
        ∧ (MQ.enqueue s (enqMsg "test-1") 0).1.queue.map (fun m => m.id)
            = ["test-1"]
        ∧ (MQ.enqueue s (enqMsg "test-1") 0).2.1 = 1) := by
  refine ⟨⟨?_, ?_, ?_⟩, ?_, ?_, ?_⟩ <;> decide

/-- Claim C3 is refuted by the code: after a single enqueue of id batch-1
the active gauge reports 2 while exactly one job is in flight (the real
counter reads 1); and after enqueueing stats-1 then stats-2 the length
gauge reports 2 while exactly one job is waiting. -/
theorem gauges_counterexample :
    (MQ.activeGauge mqBatchEnqueued = 2
      ∧ mqBatchEnqueued.inflight.length = 1
      ∧ mqBatchEnqueued.activeCount = 1
      ∧ MQ.activeGauge mqBatchEnqueued ≠ (mqBatchEnqueued.inflight.length : Int))
    ∧ (MQ.lengthGauge mqStatsEnqueued = 2
      ∧ mqStatsEnqueued.queue.length = 1
      ∧ MQ.lengthGauge mqStatsEnqueued ≠ mqStatsEnqueued.queue.length) := by
  refine ⟨⟨?_, ?_, ?_, ?_⟩, ?_, ?_, ?_⟩ <;> decide

theorem step_stopped (s : MQ) (e : MQ.QEvent) (h : s._isStopped = true) :
    (MQ.step s e).2 = [] ∧ (MQ.step s e).1._isStopped = true := by
  cases e with
  | enq m now => simp [MQ.step, MQ.enqueue, h]
  | tick =>
    by_cases ht : s.timerSet
    · simp [MQ.step, MQ.tick, ht, MQ.processQueue, h]
    · simp [MQ.step, MQ.tick, ht, h]
  | settle m success =>
    refine ⟨rfl, ?_⟩
    simp [MQ.step, MQ.settle, MQ.handleFailure, h]
  | retryFire m =>
    refine ⟨rfl, ?_⟩
    simp [MQ.step, MQ.retryFire, h]
    split <;> simp [h]
  | stop => simp [MQ.step, MQ.stop]

theorem run_stopped (es : List MQ.QEvent) :
    ∀ s : MQ, s._isStopped = true → (MQ.run s es).2 = [] := by
  induction es with
  | nil => intro s _; rfl
  | cons e es ih =>
    intro s h
    have hs := step_stopped s e h
    simp [MQ.run, hs.1, ih _ hs.2]

/-- Claim C8: stop is idempotent and terminal — it cancels the tick timer
and every retry timer, clears the wait list, resets the in-flight counter
to 0; a second stop has no additional effect; every enqueue after stop is
a no-op returning 0 with no dispatch; and no sequence of further events
ever passes another message to the processor. -/
theorem stop_idempotent_terminal (s : MQ) (es : List MQ.QEvent)
    (m : EnqMessage) (now : Int) :
    MQ.stop (MQ.stop s) = MQ.stop s
    ∧ (MQ.stop s).queue = []
    ∧ (MQ.stop s).activeCount = 0
    ∧ (MQ.stop s).retryTimers = []
    ∧ (MQ.stop s).timerSet = false
    ∧ MQ.enqueue (MQ.stop s) m now = (MQ.stop s, 0, [])
    ∧ MQ.tick (MQ.stop s) = (MQ.stop s, [])
    ∧ (MQ.run (MQ.stop s) es).2 = [] := by
  refine ⟨rfl, rfl, rfl, rfl, rfl, ?_, ?_, run_stopped es (MQ.stop s) rfl⟩
  · simp [MQ.enqueue, MQ.stop]
  · simp [MQ.tick, MQ.stop]

/-! ### Failover dispatch claims -/

/-- Claim C7: the failover dispatch skips every open breaker with no
attempt and no breaker mutation; a pair whose retry-wrapped send succeeds
gets exactly one recordSuccess, the Sent-via status, and no later backend
is tried; a pair whose retry budget is exhausted gets exactly one
recordFailure and iteration continues; an exhausted list yields the
All-providers-failed status and overall failure; and for two closed
backends where the first always fails and the second succeeds at once, the
dispatch succeeds with status Sent via the second backend, the first
breaker records exactly one failure (three send invocations), the second
exactly one success (one send invocation). -/
theorem failover_dispatch
    (now : Int) (id : String) (p : Provider) (b : CircuitBreaker)
    (rest : List (Provider × CircuitBreaker)) (store : InMemoryStore)
    (A B : Provider) (bA bB : CircuitBreaker) (errA : Nat → String)
    (v : Bool) :
    (failoverLoop now id [] store =
      ⟨false, [], [], store.markSent id "All providers failed"⟩)
    ∧ (b.isOpen now = true →
        failoverLoop now id ((p, b) :: rest) store =
          ⟨(failoverLoop now id rest store).success,
            (p, b) :: (failoverLoop now id rest store).pairs,
            0 :: (failoverLoop now id rest store).attempts,
            (failoverLoop now id rest store).store⟩)
    ∧ (b.isOpen now = false →
        (retryWithBackoff p.send 3 100).result = .ok v →
        failoverLoop now id ((p, b) :: rest) store =
          ⟨true, (p, b.recordSuccess) :: rest,
            (retryWithBackoff p.send 3 100).invocations
              :: rest.map (fun _ => 0),
            store.markSent id ("Sent via " ++ p.name)⟩)
    ∧ (∀ e : String, b.isOpen now = false →
        (retryWithBackoff p.send 3 100).result = .opError e →
        failoverLoop now id ((p, b) :: rest) store =
          ⟨(failoverLoop now id rest store).success,
            (p, b.recordFailure now) :: (failoverLoop now id rest store).pairs,
            (retryWithBackoff p.send 3 100).invocations
              :: (failoverLoop now id rest store).attempts,
            (failoverLoop now id rest store).store⟩)
    ∧ (bA.isOpen now = false → bB.isOpen now = false →
        (∀ k, A.send k = .error (errA k)) → B.send 0 = .ok v →
        (processQueuedEmail [(A, bA), (B, bB)] now id store).success = true
        ∧ (processQueuedEmail [(A, bA), (B, bB)] now id store).store.getStatus
            id = some ("Sent via " ++ B.name)
        ∧ (processQueuedEmail [(A, bA), (B, bB)] now id store).pairs
            = [(A, bA.recordFailure now), (B, bB.recordSuccess)]
        ∧ (processQueuedEmail [(A, bA), (B, bB)] now id store).attempts
            = [3, 1]) := by
  refine ⟨rfl, ?_, ?_, ?_, ?_⟩
  · intro hb
    simp [failoverLoop, hb]
  · intro hb hok
    simp [failoverLoop, hb, hok]
  · intro e hb herr
    simp [failoverLoop, hb, herr]
  · intro hbA hbB hA hB
    have hAretry : retryWithBackoff A.send 3 100 =
        ⟨.opError (errA 2), 3, [100, 200]⟩ :=
      retryFrom_allFail A.send 100 errA 3 0 (by norm_num)
        (fun i _ => by simpa using hA i)
    have hBretry : retryWithBackoff B.send 3 100 = ⟨.ok v, 1, []⟩ :=
      retryFrom_success B.send 100 0 0 3 v (by norm_num)
        (fun i hi => absurd hi (Nat.not_lt_zero i)) hB
    refine ⟨?_, ?_, ?_, ?_⟩ <;>
      simp [processQueuedEmail, failoverLoop, hbA, hbB, hAretry, hBretry,
        InMemoryStore.markSent, InMemoryStore.getStatus, update]

/-- Witness for C7: providers ProviderA (always failing) and ProviderB
(always succeeding) behind fresh breakers at time 0. -/
theorem failover_dispatch_witness :
    (processQueuedEmail [(provAlwaysFails, .init), (provAlwaysOk, .init)]
        0 "A" (InMemoryStore.init 5)).success = true
    ∧ (processQueuedEmail [(provAlwaysFails, .init), (provAlwaysOk, .init)]
        0 "A" (InMemoryStore.init 5)).store.getStatus "A"
        = some "Sent via ProviderB"
    ∧ (processQueuedEmail [(provAlwaysFails, .init), (provAlwaysOk, .init)]
        0 "A" (InMemoryStore.init 5)).pairs
        = [(provAlwaysFails, CircuitBreaker.recordFailure .init 0),
           (provAlwaysOk, CircuitBreaker.recordSuccess .init)]
    ∧ (processQueuedEmail [(provAlwaysFails, .init), (provAlwaysOk, .init)]
        0 "A" (InMemoryStore.init 5)).attempts = [3, 1] := by
  have h := (failover_dispatch 0 "A" provAlwaysOk .init [] (InMemoryStore.init 5)
      provAlwaysFails provAlwaysOk .init .init (fun _ => "ProviderA failed")
      true).2.2.2.2 rfl rfl (fun _ => rfl) rfl
  exact h

/-! ### Idempotency claims -/

theorem isDuplicate_markSent (s : InMemoryStore) (id id' status : String)
    (h : s.isDuplicate id = true) :
    (s.markSent id' status).isDuplicate id = true := by
  simp only [InMemoryStore.isDuplicate, InMemoryStore.markSent, update]
  split
  · rfl
  · exact h

theorem sent_isRateLimited (s : InMemoryStore) (toAddr : String) (now : Int) :
    ((s.isRateLimited toAddr now).2).sent = s.sent := by
  unfold InMemoryStore.isRateLimited
  cases h : s.rateLimit toAddr
  · simp
  · simp only []
    split <;> rfl

theorem isDuplicate_failoverLoop (now : Int) (dispatchId id : String) :
    ∀ (pairs : List (Provider × CircuitBreaker)) (store : InMemoryStore),
      store.isDuplicate id = true →
      (failoverLoop now dispatchId pairs store).store.isDuplicate id = true := by
  intro pairs
  induction pairs with
  | nil =>
    intro store h
    exact isDuplicate_markSent store id dispatchId "All providers failed" h
  | cons pb rest ih =>
    intro store h
    obtain ⟨p, b⟩ := pb
    cases hb : b.isOpen now with
    | true =>
      simp only [failoverLoop, hb, if_true]
      exact ih store h
    | false =>
      cases hres : (retryWithBackoff p.send 3 100).result with
      | ok v =>
        simp only [failoverLoop, hb, hres, Bool.false_eq_true, if_false]
        exact isDuplicate_markSent store id dispatchId _ h
      | opError e =>
        simp only [failoverLoop, hb, hres, Bool.false_eq_true, if_false]
        exact ih store h
      | genericError g =>
        simp only [failoverLoop, hb, hres, Bool.false_eq_true, if_false]
        exact ih store h

theorem isDuplicate_applyOp (st : ServiceState) (op : ServiceOp) (id : String)
    (h : st.store.isDuplicate id = true) :
    (applyOp st op).store.isDuplicate id = true := by
  cases op with
  | send id' toAddr subject body p now =>
    simp only [applyOp, sendEmail]
    by_cases hd : st.store.isDuplicate id' = true
    · simp only [hd, if_true]
      exact h
    · simp only [Bool.not_eq_true] at hd
      simp only [hd, Bool.false_eq_true, if_false]
      split
      · simpa [InMemoryStore.isDuplicate, sent_isRateLimited]
          using h
      · apply isDuplicate_markSent
        simpa [InMemoryStore.isDuplicate, sent_isRateLimited] using h
  | dispatch id' now =>
    simp only [applyOp, processQueuedEmail]
    exact isDuplicate_failoverLoop now id' id st.pairs _
      (isDuplicate_markSent st.store id id' "Processing" h)
  | queueFailed id' =>
    simp only [applyOp]
    exact isDuplicate_markSent st.store id id' "Failed in queue" h

theorem isDuplicate_runOps (ops : List ServiceOp) :
    ∀ (st : ServiceState) (id : String), st.store.isDuplicate id = true →
      (runOps st ops).store.isDuplicate id = true := by
  induction ops with
  | nil => intro st id h; exact h
  | cons op ops ih =>
    intro st id h
    exact ih _ _ (isDuplicate_applyOp st op id h)

/-- Claim C9: once sendEmail has returned Queued for an id (the store has
recorded a status for it), that id is recorded as seen, the seen set only
grows under every store-touching operation of the service, and every later
sendEmail with the same id returns Duplicate with no further effect on the
service state. -/
theorem sendEmail_duplicate_forever (st : ServiceState)
    (id toAddr subject body : String) (p : Nat) (now : Int)
    (ops : List ServiceOp) :
    ((sendEmail st id toAddr subject body p now).1 = "Queued" →
      ((sendEmail st id toAddr subject body p now).2).store.isDuplicate id
        = true)
    ∧ (st.store.isDuplicate id = true →
        (runOps st ops).store.isDuplicate id = true
        ∧ sendEmail (runOps st ops) id toAddr subject body p now =
            ("Duplicate", runOps st ops)) := by
  constructor
  · intro h
    by_cases hd : st.store.isDuplicate id = true
    · simp [sendEmail, hd] at h
    · simp only [Bool.not_eq_true] at hd
      by_cases hr : (st.store.isRateLimited toAddr now).1 = true
      · simp [sendEmail, hd, hr] at h
      · simp only [Bool.not_eq_true] at hr
        simp only [sendEmail, hd, hr, Bool.false_eq_true, if_false]
        simp [InMemoryStore.markSent, InMemoryStore.isDuplicate, update]
  · intro hd
    have hd' := isDuplicate_runOps ops st id hd
    exact ⟨hd', by simp [sendEmail, hd']⟩

/-- Witness for C9: after submitting id A to a fresh service and then the
queue reporting terminal failure for it, the id stays seen and a
resubmission returns Duplicate with the state unchanged. -/
theorem sendEmail_duplicate_forever_witness :
    (runOps svcQueuedA [.queueFailed "A"]).store.isDuplicate "A" = true
    ∧ sendEmail (runOps svcQueuedA [.queueFailed "A"]) "A"
        "user@example.com" "subject" "body" 1 0 =
        ("Duplicate", runOps svcQueuedA [.queueFailed "A"]) := by
  have hdup : svcQueuedA.store.isDuplicate "A" = true := by
    have h := (sendEmail_duplicate_forever svcFresh "A" "user@example.com"
      "subject" "body" 1 0 []).1
    exact h rfl
  exact (sendEmail_duplicate_forever svcQueuedA "A" "user@example.com"
    "subject" "body" 1 0 [.queueFailed "A"]).2 hdup

end MailService
